import Mathlib

/-!
# Verification of the game shell core against its specification

Shallow embedding of the repository's core modules:

* `src/app/config/levels.ts` — level catalog and unlock rules.
* `src/unnamed/part_003` — card engine round resolution (`determineWinner`).
* `src/app/game/runtime/rendering.ts` — `ParticleSystem`.
* `src/unnamed/part_002` — `InputManager` touch-gesture state machine.
* `src/unnamed/part_004` — `RunnerEngine` game-loop tick.
* `src/app/game/types/puzzle/PuzzleEngine.tsx` — `checkMatches`.
* `src/app/game/runtime/physics2d.ts` — `Vector2D`, `PhysicsBody`.

JavaScript numbers are modelled as `ℚ` where the code's arithmetic is
ring arithmetic and comparisons, and as `ℝ` where the code takes exact
square roots (`Vector2D.magnitude`/`normalize`).  `Math.sqrt` comparisons
in the input recognizer are embedded by the equivalent squared
comparisons (`Real.sqrt s > t ↔ t < 0 ∨ t² < s` for `s ≥ 0`), so that the
whole gesture machine stays executable.  Randomness (`Math.random`) is
modelled by explicit oracle inputs.  `setTimeout`/`clearTimeout` are
modelled by an explicit list of pending timers with fresh ids.
-/

/-! ## Level catalog (`src/app/config/levels.ts`) -/

structure Level where
  id : Nat
  name : String
  difficulty : String
  timeLimit : Nat
  targetScore : Nat
  obstacles : Nat
  powerUps : Nat
  coinValue : Nat
  background : String
  isPlayable : Bool
  comingSoon : Bool
deriving DecidableEq

def LEVELS : List Level := [
  { id := 1, name := "Getting Started", difficulty := "easy", timeLimit := 60,
    targetScore := 100, obstacles := 5, powerUps := 3, coinValue := 10,
    background := "#87CEEB", isPlayable := true, comingSoon := false },
  { id := 2, name := "Level Up", difficulty := "medium", timeLimit := 45,
    targetScore := 200, obstacles := 10, powerUps := 2, coinValue := 15,
    background := "#FFB347", isPlayable := true, comingSoon := false },
  { id := 3, name := "Expert Challenge", difficulty := "hard", timeLimit := 30,
    targetScore := 300, obstacles := 20, powerUps := 1, coinValue := 20,
    background := "#FF6961", isPlayable := true, comingSoon := false },
  { id := 4, name := "Advanced Trial", difficulty := "hard", timeLimit := 30,
    targetScore := 400, obstacles := 25, powerUps := 1, coinValue := 25,
    background := "#9B59B6", isPlayable := false, comingSoon := true },
  { id := 5, name := "Speed Run", difficulty := "hard", timeLimit := 20,
    targetScore := 350, obstacles := 30, powerUps := 1, coinValue := 30,
    background := "#E74C3C", isPlayable := false, comingSoon := true },
  { id := 6, name := "Master Class", difficulty := "hard", timeLimit := 25,
    targetScore := 500, obstacles := 35, powerUps := 0, coinValue := 35,
    background := "#1ABC9C", isPlayable := false, comingSoon := true },
  { id := 7, name := "Nightmare Mode", difficulty := "hard", timeLimit := 20,
    targetScore := 600, obstacles := 40, powerUps := 0, coinValue := 40,
    background := "#34495E", isPlayable := false, comingSoon := true },
  { id := 8, name := "Epic Journey", difficulty := "hard", timeLimit := 40,
    targetScore := 700, obstacles := 45, powerUps := 2, coinValue := 45,
    background := "#16A085", isPlayable := false, comingSoon := true },
  { id := 9, name := "Ultimate Test", difficulty := "hard", timeLimit := 35,
    targetScore := 800, obstacles := 50, powerUps := 1, coinValue := 50,
    background := "#2C3E50", isPlayable := false, comingSoon := true },
  { id := 10, name := "Legendary", difficulty := "hard", timeLimit := 50,
    targetScore := 1000, obstacles := 60, powerUps := 2, coinValue := 60,
    background := "#8E44AD", isPlayable := false, comingSoon := true }]

def getLevelById (id : Nat) : Option Level :=
  LEVELS.find? (fun level => level.id == id)

def getNextLevel (currentLevelId : Nat) : Option Level :=
  LEVELS.find? (fun level => level.id == currentLevelId + 1)

def getPlayableLevels : List Level :=
  LEVELS.filter (fun level => level.isPlayable)

def getLockedLevels : List Level :=
  LEVELS.filter (fun level => !level.isPlayable)

/-- `isLevelUnlocked(levelId, completedLevelIds)`: missing or non-playable
levels are locked; level 1 is always unlocked; otherwise the level unlocks
when the previous level id is among the completed ids. -/
def isLevelUnlocked (levelId : Nat) (completedLevelIds : List Nat) : Bool :=
  match getLevelById levelId with
  | none => false
  | some level =>
    if !level.isPlayable then false
    else if levelId == 1 then true
    else completedLevelIds.contains (levelId - 1)

/-! ## Card engine round resolution (`src/unnamed/part_003`) -/

def TARGET : Nat := 20

inductive RoundWinner
  | player
  | opponent
deriving DecidableEq

/-- `CardEngine.determineWinner`: player bust loses, else opponent bust
loses, else strictly greater score wins, else (ties included) the
opponent takes the round. -/
def determineWinner (pScore oScore : Nat) : RoundWinner :=
  if pScore > TARGET then RoundWinner.opponent
  else if oScore > TARGET then RoundWinner.player
  else if pScore > oScore then RoundWinner.player
  else RoundWinner.opponent

/-! ## Particle system (`src/app/game/runtime/rendering.ts`) -/

structure Particle where
  x : ℚ
  y : ℚ
  vx : ℚ
  vy : ℚ
  life : ℚ
  maxLife : ℚ
  size : ℚ
  color : String

structure EmitOptions where
  velocityRange : ℚ × ℚ
  lifeRange : ℚ × ℚ
  sizeRange : ℚ × ℚ
  color : String

def defaultEmitOptions : EmitOptions :=
  { velocityRange := (-100, 100), lifeRange := (500, 1500),
    sizeRange := (2, 6), color := "#FFFFFF" }

structure ParticleSystem where
  particles : List Particle
  maxParticles : Nat

def ParticleSystem.init (maxParticles : Nat) : ParticleSystem :=
  { particles := [], maxParticles := maxParticles }

/-- One iteration's particle: four `Math.random()` draws (modelled by the
oracle stream `rand` at consecutive indices) mapped affinely into the
option ranges, exactly as in `ParticleSystem.emit`. -/
def mkParticle (x y : ℚ) (opts : EmitOptions) (rand : Nat → ℚ) (i : Nat) : Particle :=
  let vx := rand i * (opts.velocityRange.2 - opts.velocityRange.1) + opts.velocityRange.1
  let vy := rand (i + 1) * (opts.velocityRange.2 - opts.velocityRange.1) + opts.velocityRange.1
  let life := rand (i + 2) * (opts.lifeRange.2 - opts.lifeRange.1) + opts.lifeRange.1
  let size := rand (i + 3) * (opts.sizeRange.2 - opts.sizeRange.1) + opts.sizeRange.1
  { x := x, y := y, vx := vx, vy := vy, life := life, maxLife := life,
    size := size, color := opts.color }

/-- The emit loop `for (i = 0; i < count && particles.length < maxParticles; i++)`:
push one particle per iteration while below capacity. -/
def emitLoop (x y : ℚ) (opts : EmitOptions) (rand : Nat → ℚ) (maxParticles : Nat) :
    Nat → Nat → List Particle → List Particle
  | 0, _, ps => ps
  | n + 1, i, ps =>
    if ps.length < maxParticles then
      emitLoop x y opts rand maxParticles n (i + 4) (ps ++ [mkParticle x y opts rand i])
    else ps

def ParticleSystem.emit (s : ParticleSystem) (x y : ℚ) (count : Nat)
    (opts : EmitOptions) (rand : Nat → ℚ) : ParticleSystem :=
  { s with particles := emitLoop x y opts rand s.maxParticles count 0 s.particles }

/-- `ParticleSystem.update`: integrate position, decrement life by
`dt*1000`, drop particles whose life reaches `0` (the source's backwards
splice loop preserves relative order, i.e. it is a map-then-filter). -/
def ParticleSystem.update (s : ParticleSystem) (dt : ℚ) : ParticleSystem :=
  { s with particles :=
      (s.particles.map (fun p =>
        { p with x := p.x + p.vx * dt, y := p.y + p.vy * dt,
                 life := p.life - dt * 1000 })).filter (fun p => 0 < p.life) }

def ParticleSystem.count (s : ParticleSystem) : Nat :=
  s.particles.length

/-- A client-visible operation on a particle system (the randomness of
`emit` is part of the operation as an oracle). -/
inductive ParticleOp
  | emit (x y : ℚ) (count : Nat) (opts : EmitOptions) (rand : Nat → ℚ)
  | update (dt : ℚ)

def ParticleSystem.applyOp (s : ParticleSystem) : ParticleOp → ParticleSystem
  | ParticleOp.emit x y count opts rand => s.emit x y count opts rand
  | ParticleOp.update dt => s.update dt

def ParticleSystem.runOps (maxParticles : Nat) (ops : List ParticleOp) : ParticleSystem :=
  ops.foldl ParticleSystem.applyOp (ParticleSystem.init maxParticles)

/-! ## Input recognizer (`src/unnamed/part_002`)

`Math.sqrt(sq) > t` and `Math.sqrt(sq) < t` on a sum of squares `sq ≥ 0`
are embedded by the equivalent rational comparisons, keeping the machine
executable. -/

/-- `Real.sqrt sq > t`, decided over `ℚ` (valid for `sq ≥ 0`). -/
def sqrtGtQ (sq t : ℚ) : Bool :=
  decide (t < 0) || decide (t * t < sq)

/-- `Real.sqrt sq < t`, decided over `ℚ` (valid for `sq ≥ 0`). -/
def sqrtLtQ (sq t : ℚ) : Bool :=
  decide (0 < t) && decide (sq < t * t)

/-- `Math.sqrt sq / dur > v`, decided over `ℚ` (valid for `sq ≥ 0`;
for `dur = 0` JavaScript yields `Infinity` when `sq > 0` and `NaN`
when `sq = 0`, hence the middle case). -/
def velGtQ (sq dur v : ℚ) : Bool :=
  if 0 < dur then sqrtGtQ sq (v * dur)
  else if dur = 0 then decide (0 < sq)
  else sqrtLtQ sq (v * dur)

structure InputConfig where
  doubleTapThreshold : ℚ
  longPressThreshold : ℚ
  swipeThreshold : ℚ
  swipeVelocityThreshold : ℚ
  dragThreshold : ℚ
deriving DecidableEq

def DEFAULT_INPUT_CONFIG : InputConfig :=
  { doubleTapThreshold := 300, longPressThreshold := 500, swipeThreshold := 50,
    swipeVelocityThreshold := 3 / 10, dragThreshold := 10 }

inductive InputEventType
  | tap
  | double_tap
  | long_press
  | swipe_up
  | swipe_down
  | swipe_left
  | swipe_right
  | drag_start
  | drag_move
  | drag_end
deriving DecidableEq

/-- The `TouchState` record; `longPressTimer` holds the id of the pending
`setTimeout` handle, if any. -/
structure TouchStateM where
  startX : ℚ
  startY : ℚ
  currentX : ℚ
  currentY : ℚ
  startTime : ℚ
  lastTapTime : ℚ
  isDragging : Bool
  longPressTriggered : Bool
  longPressTimer : Option Nat
deriving DecidableEq

/-- A pending `setTimeout` for the long press, with the captured touch
position of the closure. -/
structure PendingTimer where
  id : Nat
  x : ℚ
  y : ℚ
deriving DecidableEq

structure IMState where
  touchState : Option TouchStateM
  pending : List PendingTimer
  nextId : Nat
deriving DecidableEq

def initIMState : IMState :=
  { touchState := none, pending := [], nextId := 0 }

/-- `clearTimeout` on an optional handle (a no-op on `none`, i.e. when the
JS truthiness test on the handle fails). -/
def clearTimer (pending : List PendingTimer) : Option Nat → List PendingTimer
  | none => pending
  | some id => pending.filter (fun p => p.id ≠ id)

/-- `InputManager.handleTouchStart`: clear any existing long-press timer,
initialize a fresh `TouchState` carrying over `lastTapTime` (`|| 0` is the
identity on the carried value, since an absent state yields `0`), and
start a new long-press timer. -/
def handleTouchStart (x y now : ℚ) (s : IMState) : IMState × List InputEventType :=
  let pending1 :=
    match s.touchState with
    | some ts => clearTimer s.pending ts.longPressTimer
    | none => s.pending
  let lastTap :=
    match s.touchState with
    | some ts => ts.lastTapTime
    | none => 0
  let id := s.nextId
  let ts : TouchStateM :=
    { startX := x, startY := y, currentX := x, currentY := y, startTime := now,
      lastTapTime := lastTap, isDragging := false, longPressTriggered := false,
      longPressTimer := some id }
  ({ touchState := some ts, pending := pending1 ++ [{ id := id, x := x, y := y }],
     nextId := id + 1 }, [])

/-- The long-press `setTimeout` callback firing (only a still-pending timer
can fire): it re-checks the *current* touch state and emits `long_press`
unless a drag has begun. -/
def fireLongPress (id : Nat) (s : IMState) : IMState × List InputEventType :=
  if s.pending.any (fun p => p.id == id) then
    let pending1 := s.pending.filter (fun p => p.id ≠ id)
    match s.touchState with
    | some ts =>
      if ts.isDragging then ({ s with pending := pending1 }, [])
      else
        let ts1 := { ts with longPressTriggered := true }
        ({ s with pending := pending1, touchState := some ts1 },
         [InputEventType.long_press])
    | none => ({ s with pending := pending1 }, [])
  else (s, [])

/-- `InputManager.handleTouchMove`: update the current position; on first
crossing of `dragThreshold` (distance from the start point) cancel the
long-press timer and emit `drag_start` followed by `drag_move` (the second
`if` in the source also fires on the crossing move); while dragging emit
`drag_move`. -/
def handleTouchMove (cfg : InputConfig) (x y : ℚ) (s : IMState) : IMState × List InputEventType :=
  match s.touchState with
  | none => (s, [])
  | some ts =>
    let totalDeltaX := x - ts.startX
    let totalDeltaY := y - ts.startY
    let distSq := totalDeltaX * totalDeltaX + totalDeltaY * totalDeltaY
    let ts1 := { ts with currentX := x, currentY := y }
    if !ts1.isDragging && sqrtGtQ distSq cfg.dragThreshold then
      let pending1 := clearTimer s.pending ts1.longPressTimer
      let ts2 := { ts1 with isDragging := true, longPressTimer := none }
      ({ s with touchState := some ts2, pending := pending1 },
       [InputEventType.drag_start, InputEventType.drag_move])
    else if ts1.isDragging then
      ({ s with touchState := some ts1 }, [InputEventType.drag_move])
    else
      ({ s with touchState := some ts1 }, [])

def detectSwipeDirection (deltaX deltaY : ℚ) : InputEventType :=
  if |deltaX| > |deltaY| then
    if deltaX > 0 then InputEventType.swipe_right else InputEventType.swipe_left
  else
    if deltaY > 0 then InputEventType.swipe_down else InputEventType.swipe_up

/-- `InputManager.handleTouchEnd`: clear the long-press timer; a drag ends
with `drag_end`; otherwise a fast long displacement is classified as a
swipe; otherwise (no long press fired and displacement under
`dragThreshold`) the touch is a tap, upgraded to `double_tap` when the
stored `lastTapTime` is recent.  The touch state is reset to `null` at the
end (which also drops the written-back `lastTapTime`). -/
def handleTouchEnd (cfg : InputConfig) (x y now : ℚ) (s : IMState) :
    IMState × List InputEventType :=
  match s.touchState with
  | none => (s, [])
  | some ts =>
    let duration := now - ts.startTime
    let deltaX := x - ts.startX
    let deltaY := y - ts.startY
    let distSq := deltaX * deltaX + deltaY * deltaY
    let pending1 := clearTimer s.pending ts.longPressTimer
    let events :=
      if ts.isDragging then [InputEventType.drag_end]
      else if sqrtGtQ distSq cfg.swipeThreshold && decide (duration < 500) then
        if velGtQ distSq duration cfg.swipeVelocityThreshold then
          [detectSwipeDirection deltaX deltaY]
        else []
      else if !ts.longPressTriggered && sqrtLtQ distSq cfg.dragThreshold then
        if now - ts.lastTapTime < cfg.doubleTapThreshold then
          [InputEventType.double_tap]
        else [InputEventType.tap]
      else []
    ({ s with touchState := none, pending := pending1 }, events)

/-- `InputManager.clear`: cancel the pending long-press timer (if any) and
drop the touch state (listener bookkeeping is not modelled). -/
def clearIM (s : IMState) : IMState × List InputEventType :=
  let pending1 :=
    match s.touchState with
    | some ts => clearTimer s.pending ts.longPressTimer
    | none => s.pending
  ({ touchState := none, pending := pending1, nextId := s.nextId }, [])

/-- The calls a client (or the timer queue) can make on an `InputManager`. -/
inductive IMAction
  | touchStart (x y now : ℚ)
  | touchMove (x y now : ℚ)
  | touchEnd (x y now : ℚ)
  | timerFire (id : Nat)
  | clearAll

def imStep (cfg : InputConfig) (s : IMState) : IMAction → IMState × List InputEventType
  | IMAction.touchStart x y now => handleTouchStart x y now s
  | IMAction.touchMove x y _ => handleTouchMove cfg x y s
  | IMAction.touchEnd x y now => handleTouchEnd cfg x y now s
  | IMAction.timerFire id => fireLongPress id s
  | IMAction.clearAll => clearIM s

/-- Run a sequence of calls from a given state, concatenating the emitted
events in order. -/
def imRunFrom (cfg : InputConfig) (s : IMState) : List IMAction → IMState × List InputEventType
  | [] => (s, [])
  | a :: acts =>
    let r := imStep cfg s a
    let rr := imRunFrom cfg r.1 acts
    (rr.1, r.2 ++ rr.2)

def imRun (cfg : InputConfig) (acts : List IMAction) : IMState × List InputEventType :=
  imRunFrom cfg initIMState acts

/-! ## Runner engine (`src/unnamed/part_004`)

The 50 ms `setInterval` tick.  `Math.random()` spawn decisions and lane
draws are oracle inputs of each tick; the screen width (spawn x) is a
parameter `W`.  `PLAYER_SIZE = 50`, so the collision window for an object
in the player's lane is `-20 < x < 70`. -/

inductive RunnerObjKind
  | obstacle
  | coin
deriving DecidableEq

structure RunnerObj where
  id : Nat
  x : ℚ
  lane : Nat
  kind : RunnerObjKind
deriving DecidableEq

structure RunnerState where
  playerLane : Nat
  score : Nat
  lives : Nat
  distance : Nat
  objects : List RunnerObj
  nextObjId : Nat
  running : Bool
  scoreEvents : List Nat
  winFired : Bool
  loseFired : Bool
deriving DecidableEq

def runnerInit : RunnerState :=
  { playerLane := 1, score := 0, lives := 5, distance := 0, objects := [],
    nextObjId := 0, running := true, scoreEvents := [], winFired := false,
    loseFired := false }

/-- The spawn-randomness outcomes of one tick: whether
`Math.random() < level.obstacles * 0.0002` (resp. `< 0.015`) fired, and
the lanes `Math.floor(Math.random() * NUM_LANES)` drawn for each spawn. -/
structure TickRand where
  spawnObs : Bool
  obsLane : Nat
  spawnCoin : Bool
  coinLane : Nat

def runnerCollides (playerLane : Nat) (o : RunnerObj) : Bool :=
  decide (o.x < 50 + 20) && decide (-20 < o.x) && decide (o.lane = playerLane)

/-- `handleObstacleCollision`: `lives := max 0 (lives - 1)`; at zero the
loop stops and `onLose` fires. -/
def runnerHitObstacle (s : RunnerState) : RunnerState :=
  let newLives := s.lives - 1
  let s1 := { s with lives := newLives }
  if newLives = 0 then { s1 with running := false, loseFired := true } else s1

/-- `handleCoinCollection`: `score := score + level.coinValue`, reported
through `onScoreChange`. -/
def runnerCollectCoin (level : Level) (s : RunnerState) : RunnerState :=
  let newScore := s.score + level.coinValue
  { s with score := newScore, scoreEvents := s.scoreEvents ++ [newScore] }

/-- One iteration of the `setInterval` callback in `startGameLoop`:
distance accrual (with the `distance % 10 === 0` score write and the win
check), the two probabilistic spawns, then object movement, collision
handling and removal of collided/off-screen objects. -/
def runnerTick (level : Level) (W : ℚ) (r : TickRand) (s : RunnerState) : RunnerState :=
  if !s.running then s
  else
    let newDistance := s.distance + 1
    let s1 := { s with distance := newDistance }
    let s2 :=
      if newDistance % 10 = 0 then
        let newScore := newDistance / 10
        { s1 with score := newScore, scoreEvents := s1.scoreEvents ++ [newScore] }
      else s1
    let s3 :=
      if newDistance ≥ level.targetScore * 10 then
        { s2 with running := false, winFired := true }
      else s2
    let s4 :=
      if r.spawnObs then
        { s3 with
          objects := s3.objects ++
            [{ id := s3.nextObjId, x := W, lane := r.obsLane, kind := RunnerObjKind.obstacle }],
          nextObjId := s3.nextObjId + 1 }
      else s3
    let s5 :=
      if r.spawnCoin then
        { s4 with
          objects := s4.objects ++
            [{ id := s4.nextObjId, x := W, lane := r.coinLane, kind := RunnerObjKind.coin }],
          nextObjId := s4.nextObjId + 1 }
      else s4
    let moved := (s5.objects.map (fun o => { o with x := o.x - 5 })).filter
      (fun o => o.x > -100)
    let s6 := (moved.filter (runnerCollides s5.playerLane)).foldl
      (fun st o =>
        match o.kind with
        | RunnerObjKind.obstacle => runnerHitObstacle st
        | RunnerObjKind.coin => runnerCollectCoin level st)
      s5
    { s6 with objects := moved.filter (fun o => !runnerCollides s5.playerLane o) }

def runnerRun (level : Level) (W : ℚ) (rands : List TickRand) : RunnerState :=
  rands.foldl (fun s r => runnerTick level W r s) runnerInit

/-! ## Puzzle engine (`src/app/game/types/puzzle/PuzzleEngine.tsx`)

`GRID_SIZE = 6`; the grid is modelled as a total function from (row, col)
to the tile's color string (tile ids are not modelled — the claims are
about colors and score).  The replacement `COLORS[Math.floor(Math.random()
* COLORS.length)]` is modelled by an oracle stream of valid indexes. -/

def GRID_SIZE : Nat := 6

def COLORS : List String :=
  ["#e8d5b7", "#b8d4e3", "#d4e8d4", "#f4c2c2", "#e8d4f4"]

def Grid : Type := Nat → Nat → String

/-- A maximal-window hit of the match scan: the start cell of a length-3
horizontal or vertical window of equal colors. -/
inductive MWindow
  | horiz (row col : Nat)
  | vert (row col : Nat)
deriving DecidableEq

def MWindow.cells : MWindow → List (Nat × Nat)
  | MWindow.horiz r c => [(r, c), (r, c + 1), (r, c + 2)]
  | MWindow.vert r c => [(r, c), (r + 1, c), (r + 2, c)]

/-- The horizontal scan: rows `0..5`, window starts `0..GRID_SIZE-3`. -/
def matchesH (g : Grid) : List MWindow :=
  (List.range GRID_SIZE).flatMap fun row =>
    (List.range (GRID_SIZE - 2)).filterMap fun col =>
      if g row col = g row (col + 1) ∧ g row col = g row (col + 2) then
        some (MWindow.horiz row col)
      else none

/-- The vertical scan: columns `0..5`, window starts `0..GRID_SIZE-3`. -/
def matchesV (g : Grid) : List MWindow :=
  (List.range GRID_SIZE).flatMap fun col =>
    (List.range (GRID_SIZE - 2)).filterMap fun row =>
      if g row col = g (row + 1) col ∧ g row col = g (row + 2) col then
        some (MWindow.vert row col)
      else none

/-- All windows found by `checkMatches`, horizontal scan first, exactly in
push order of the source's `toRemove`. -/
def matchedWindows (g : Grid) : List MWindow :=
  matchesH g ++ matchesV g

/-- First-occurrence deduplication, the effect of
`Array.from(new Set(toRemove.map(key)))` in the source. -/
def uniqJS {α : Type} [DecidableEq α] : List α → List α
  | [] => []
  | a :: l => a :: uniqJS (l.filter (fun b => b ≠ a))
termination_by l => l.length
decreasing_by
  simp only [List.length_cons]
  exact Nat.lt_succ_of_le (List.length_filter_le _ _)

def setCell (g : Grid) (p : Nat × Nat) (v : String) : Grid :=
  fun r c => if r = p.1 ∧ c = p.2 then v else g r c

/-- The `uniqueMatches.forEach` replacement loop: each matched cell gets a
fresh random color, one oracle draw per cell. -/
def replaceCells (rng : Nat → Fin COLORS.length) : Grid → List (Nat × Nat) → Nat → Grid
  | g, [], _ => g
  | g, p :: ps, i => replaceCells rng (setCell g p (COLORS.get (rng i))) ps (i + 1)

/-- `PuzzleEngine.checkMatches`: scan both orientations, and if any window
matched, deduplicate the cells, award `uniqueMatches.length * coinValue`
points (reported through `onScoreChange`), and replace the matched cells
with fresh random colors.  Returns (new grid, new score, `onScoreChange`
reports). -/
def checkMatches (coinValue : Nat) (rng : Nat → Fin COLORS.length) (g : Grid)
    (score : Nat) : Grid × Nat × List Nat :=
  let toRemove := (matchedWindows g).flatMap MWindow.cells
  if toRemove.isEmpty then (g, score, [])
  else
    let uniqueMatches := uniqJS toRemove
    let points := uniqueMatches.length * coinValue
    let newScore := score + points
    (replaceCells rng g uniqueMatches 0, newScore, [newScore])

/-! ## 2D vectors and physics bodies (`src/app/game/runtime/physics2d.ts`)

Numbers are modelled as `ℝ` here because `magnitude` takes a square root;
the zero tests mirror the source's `=== 0` comparisons. -/

structure Vector2D where
  x : ℝ
  y : ℝ

namespace Vector2D

def add (v other : Vector2D) : Vector2D :=
  ⟨v.x + other.x, v.y + other.y⟩

def subtract (v other : Vector2D) : Vector2D :=
  ⟨v.x - other.x, v.y - other.y⟩

def multiply (v : Vector2D) (scalar : ℝ) : Vector2D :=
  ⟨v.x * scalar, v.y * scalar⟩

/-- `divide`: a zero scalar returns the zero vector instead of signaling
an error. -/
noncomputable def divide (v : Vector2D) (scalar : ℝ) : Vector2D :=
  if scalar = 0 then ⟨0, 0⟩ else ⟨v.x / scalar, v.y / scalar⟩

noncomputable def magnitude (v : Vector2D) : ℝ :=
  Real.sqrt (v.x * v.x + v.y * v.y)

/-- `normalize`: the zero vector normalizes to the zero vector. -/
noncomputable def normalize (v : Vector2D) : Vector2D :=
  if v.magnitude = 0 then ⟨0, 0⟩ else v.divide v.magnitude

end Vector2D

structure PhysicsBody where
  position : Vector2D
  velocity : Vector2D
  acceleration : Vector2D
  mass : ℝ
  friction : ℝ
  restitution : ℝ

namespace PhysicsBody

/-- `applyForce`: accumulate `force / mass` into the acceleration. -/
noncomputable def applyForce (b : PhysicsBody) (force : Vector2D) : PhysicsBody :=
  { b with acceleration := b.acceleration.add (force.divide b.mass) }

/-- `update(dt)`: integrate acceleration into velocity, damp by
`1 - friction`, integrate the damped velocity into position, and reset the
acceleration to zero. -/
noncomputable def update (b : PhysicsBody) (deltaTime : ℝ) : PhysicsBody :=
  let v1 := b.velocity.add (b.acceleration.multiply deltaTime)
  let v2 := v1.multiply (1 - b.friction)
  { b with
    velocity := v2,
    position := b.position.add (v2.multiply deltaTime),
    acceleration := ⟨0, 0⟩ }

end PhysicsBody

/-! ## Derived notions used by the statements -/

/-- The timer-hygiene invariant of the input manager: no pending timer, or
exactly the current touch state's own timer pending. -/
def timerInv (s : IMState) : Prop :=
  s.pending = [] ∨
    ∃ ts p, s.touchState = some ts ∧ ts.longPressTimer = some p.id ∧ s.pending = [p]

/-- Whether a single `handleTouchMove(x, y)` sample lies beyond
`dragThreshold` from the touch start `(x0, y0)` (the source's
`distance > this.config.dragThreshold` on that move). -/
def crossesDrag (cfg : InputConfig) (x0 y0 : ℚ) (m : ℚ × ℚ × ℚ) : Bool :=
  sqrtGtQ ((m.1 - x0) * (m.1 - x0) + (m.2.1 - y0) * (m.2.1 - y0)) cfg.dragThreshold

def movesActs (moves : List (ℚ × ℚ × ℚ)) : List IMAction :=
  moves.map fun m => IMAction.touchMove m.1 m.2.1 m.2.2

/-- A full touch sequence: one `handleTouchStart`, the given
`handleTouchMove` samples, one `handleTouchEnd`. -/
def dragTrace (x0 y0 t0 : ℚ) (moves : List (ℚ × ℚ × ℚ)) (x1 y1 t1 : ℚ) :
    List IMAction :=
  IMAction.touchStart x0 y0 t0 :: (movesActs moves ++ [IMAction.touchEnd x1 y1 t1])

/-- The stock catalog's level 1 (used as the running level of the runner
engine scenarios). -/
def level1 : Level :=
  { id := 1, name := "Getting Started", difficulty := "easy", timeLimit := 60,
    targetScore := 100, obstacles := 5, powerUps := 3, coinValue := 10,
    background := "#87CEEB", isPlayable := true, comingSoon := false }

/-- A 6×6 grid whose only run of three equal colors is horizontal at row 0,
columns 0–2 (elsewhere a strict two-coloring by parity). -/
def demoGrid : Grid := fun r c =>
  if r = 0 ∧ c ≤ 2 then "#e8d5b7"
  else if (r + c) % 2 = 0 then "#b8d4e3"
  else "#d4e8d4"

/-! ## Theorems -/

/-- C8: on the stock 10-level catalog, `getPlayableLevels` returns exactly
the levels with ids 1, 2, 3 in that order; level 1 is always unlocked; a
playable level with id > 1 is unlocked iff the completed list contains
id − 1 (in particular `isLevelUnlocked 2 [] = false` and
`isLevelUnlocked 2 [1] = true`); and `getNextLevel 10` is undefined. -/
theorem levels_catalog_C8 :
    getPlayableLevels.map Level.id = [1, 2, 3] ∧
    isLevelUnlocked 2 [] = false ∧
    isLevelUnlocked 2 [1] = true ∧
    (∀ completed : List Nat, isLevelUnlocked 1 completed = true) ∧
    (∀ completed : List Nat, isLevelUnlocked 2 completed = completed.contains 1) ∧
    (∀ completed : List Nat, isLevelUnlocked 3 completed = completed.contains 2) ∧
    getNextLevel 10 = none := by
  refine ⟨by decide, by decide, by decide, ?_, ?_, ?_, by decide⟩ <;>
    intro completed <;> rfl

/-- C10: in `determineWinner`, a non-bust tie goes to the opponent, and the
player takes a round exactly when the player has not bust and either the
opponent bust over `TARGET` or the player's score is strictly greater. -/
theorem card_determineWinner_C10 (pScore oScore : Nat) :
    (pScore ≤ TARGET → oScore ≤ TARGET → pScore = oScore →
      determineWinner pScore oScore = RoundWinner.opponent) ∧
    (determineWinner pScore oScore = RoundWinner.player ↔
      pScore ≤ TARGET ∧ (TARGET < oScore ∨ (oScore ≤ TARGET ∧ oScore < pScore))) := by
  unfold determineWinner TARGET
  constructor
  · intro hp ho he
    subst he
    split_ifs <;> first | rfl | (exfalso; omega)
  · constructor
    · intro h
      split_ifs at h with h1 h2 h3
      · exact ⟨by omega, Or.inl (by omega)⟩
      · exact ⟨by omega, Or.inr ⟨by omega, by omega⟩⟩
    · rintro ⟨hp, ho | ⟨ho, hlt⟩⟩ <;> split_ifs <;> first | rfl | (exfalso; omega)

/-- Witness for C10 at the tie 15–15 (neither side bust). -/
theorem card_determineWinner_C10_witness :
    15 ≤ TARGET ∧ determineWinner 15 15 = RoundWinner.opponent :=
  ⟨by decide, (card_determineWinner_C10 15 15).1 (by decide) (by decide) rfl⟩

/-- The emit loop grows the particle list to `min (start + count) capacity`
whenever it starts within capacity. -/
theorem emitLoop_length (x y : ℚ) (opts : EmitOptions) (rand : Nat → ℚ)
    (maxParticles : Nat) :
    ∀ (n i : Nat) (ps : List Particle), ps.length ≤ maxParticles →
      (emitLoop x y opts rand maxParticles n i ps).length =
        min (ps.length + n) maxParticles := by
  intro n
  induction n with
  | zero => intro i ps h; simp [emitLoop]; omega
  | succ n ih =>
    intro i ps h
    rw [emitLoop]
    split
    · rename_i hlt
      rw [ih (i + 4) (ps ++ [mkParticle x y opts rand i]) (by simp; omega)]
      simp
      omega
    · rename_i hge
      have : ps.length = maxParticles := by omega
      omega

theorem applyOp_maxParticles (s : ParticleSystem) (op : ParticleOp) :
    (s.applyOp op).maxParticles = s.maxParticles := by
  cases op <;> rfl

theorem applyOp_count_le (s : ParticleSystem) (op : ParticleOp)
    (h : s.count ≤ s.maxParticles) : (s.applyOp op).count ≤ s.maxParticles := by
  cases op with
  | emit x y count opts rand =>
    show (emitLoop x y opts rand s.maxParticles count 0 s.particles).length ≤ _
    rw [emitLoop_length x y opts rand s.maxParticles count 0 s.particles h]
    omega
  | update dt =>
    show (List.filter _ (List.map _ s.particles)).length ≤ _
    calc (List.filter _ (List.map _ s.particles)).length
        ≤ (List.map _ s.particles).length := List.length_filter_le _ _
      _ = s.particles.length := List.length_map _ _
      _ ≤ s.maxParticles := h

theorem runOps_inv (ops : List ParticleOp) :
    ∀ s : ParticleSystem, s.count ≤ s.maxParticles →
      (ops.foldl ParticleSystem.applyOp s).count ≤ s.maxParticles ∧
      (ops.foldl ParticleSystem.applyOp s).maxParticles = s.maxParticles := by
  induction ops with
  | nil => intro s h; exact ⟨h, rfl⟩
  | cons op ops ih =>
    intro s h
    have h1 := applyOp_count_le s op h
    have h2 := applyOp_maxParticles s op
    have := ih (s.applyOp op) (by rw [h2]; exact h1)
    simp only [List.foldl_cons]
    exact ⟨by rw [← h2]; exact this.1, by rw [← h2]; exact this.2⟩

/-- C5: after any sequence of `emit`/`update` operations on a system
constructed with capacity `N`, the particle count never exceeds `N`; and an
`emit` whose count exceeds the remaining capacity silently truncates,
leaving the count at exactly `N`. -/
theorem particleSystem_cap_C5 (N : Nat) (ops : List ParticleOp) (x y : ℚ)
    (n : Nat) (opts : EmitOptions) (rand : Nat → ℚ)
    (hbig : N - (ParticleSystem.runOps N ops).count < n) :
    (ParticleSystem.runOps N ops).count ≤ N ∧
    ((ParticleSystem.runOps N ops).emit x y n opts rand).count = N := by
  have base : (ParticleSystem.init N).count ≤ (ParticleSystem.init N).maxParticles := by
    simp [ParticleSystem.init, ParticleSystem.count]
  have inv := runOps_inv ops (ParticleSystem.init N) base
  have hmax : (ParticleSystem.runOps N ops).maxParticles = N := inv.2
  have hcount : (ParticleSystem.runOps N ops).count ≤ N := by
    have := inv.1
    simpa [ParticleSystem.runOps] using this
  refine ⟨hcount, ?_⟩
  show (emitLoop x y opts rand _ n 0 _).length = N
  rw [hmax]
  rw [emitLoop_length x y opts rand N n 0 (ParticleSystem.runOps N ops).particles hcount]
  have : (ParticleSystem.runOps N ops).particles.length =
      (ParticleSystem.runOps N ops).count := rfl
  omega

/-- Witness for C5: capacity 2, empty history, emit request of 5. -/
theorem particleSystem_cap_C5_witness :
    2 - (ParticleSystem.runOps 2 []).count < 5 ∧
    ((ParticleSystem.runOps 2 []).emit 0 0 5 defaultEmitOptions (fun _ => 0)).count = 2 :=
  ⟨by decide,
   (particleSystem_cap_C5 2 [] 0 0 5 defaultEmitOptions (fun _ => 0) (by decide)).2⟩


/-- C1 (refuting evaluation): with the default config, a first sub-drag
tap sequence emits one `tap`; a second identical sequence only 90 ms
later (well within `doubleTapThreshold = 300`) emits `tap` again, not
`double_tap` — `lastTapTime` lives on the per-touch `TouchState`, which
`handleTouchEnd` resets to `null`, so the tap memory never survives to
the next touch. -/
theorem inputManager_doubleTap_lost_C1 :
    (imRun DEFAULT_INPUT_CONFIG
      [IMAction.touchStart 0 0 1000, IMAction.touchEnd 0 0 1010,
       IMAction.touchStart 0 0 1100, IMAction.touchEnd 0 0 1110]).2 =
      [InputEventType.tap, InputEventType.tap] := by
  norm_num [imRun, imRunFrom, imStep, handleTouchStart, handleTouchEnd, clearTimer,
    sqrtGtQ, sqrtLtQ, velGtQ, detectSwipeDirection, DEFAULT_INPUT_CONFIG, initIMState]

/-- C2 (refuting evaluation): running level 1 (`coinValue = 10`,
`getLevelById 1 = some level1`) with screen width 100 and a single coin
spawned in the player's lane on tick 1: the coin is collected on tick 7
(`onScoreChange` reports 10), but the tick-10 distance update
*overwrites* the score with `floor(10/10) = 1` (`onScoreChange` reports
1) instead of `1 + 10` — the coin bonus does not persist. -/
theorem runner_coinBonus_overwritten_C2 :
    getLevelById 1 = some level1 ∧
    (runnerRun level1 100
      ({ spawnObs := false, obsLane := 0, spawnCoin := true, coinLane := 1 } ::
        List.replicate 9
          { spawnObs := false, obsLane := 0, spawnCoin := false, coinLane := 0 })).distance
      = 10 ∧
    (runnerRun level1 100
      ({ spawnObs := false, obsLane := 0, spawnCoin := true, coinLane := 1 } ::
        List.replicate 9
          { spawnObs := false, obsLane := 0, spawnCoin := false, coinLane := 0 })).scoreEvents
      = [10, 1] ∧
    (runnerRun level1 100
      ({ spawnObs := false, obsLane := 0, spawnCoin := true, coinLane := 1 } ::
        List.replicate 9
          { spawnObs := false, obsLane := 0, spawnCoin := false, coinLane := 0 })).score
      = 1 := by
  refine ⟨by decide, ?_, ?_, ?_⟩ <;>
  norm_num [runnerRun, runnerTick, runnerCollides, runnerHitObstacle, runnerCollectCoin,
    runnerInit, level1, List.replicate]

/-- C3: after `update(dt)` the velocity is exactly
`(v + a·dt)·(1 − friction)`, the position advances by the *new* velocity
times `dt`, and the acceleration is reset to `(0,0)` regardless of prior
`applyForce` calls (the body `b` is arbitrary, hence covers any such
history); `applyForce` accumulates `force/mass` into the acceleration. -/
theorem physicsBody_update_C3 (b : PhysicsBody) (deltaTime : ℝ) (f : Vector2D)
    (hm : b.mass ≠ 0) :
    (b.update deltaTime).velocity.x
        = (b.velocity.x + b.acceleration.x * deltaTime) * (1 - b.friction) ∧
    (b.update deltaTime).velocity.y
        = (b.velocity.y + b.acceleration.y * deltaTime) * (1 - b.friction) ∧
    (b.update deltaTime).position.x
        = b.position.x + (b.update deltaTime).velocity.x * deltaTime ∧
    (b.update deltaTime).position.y
        = b.position.y + (b.update deltaTime).velocity.y * deltaTime ∧
    (b.update deltaTime).acceleration = ⟨0, 0⟩ ∧
    (b.applyForce f).acceleration.x = b.acceleration.x + f.x / b.mass ∧
    (b.applyForce f).acceleration.y = b.acceleration.y + f.y / b.mass := by
  unfold PhysicsBody.update PhysicsBody.applyForce Vector2D.add Vector2D.multiply
    Vector2D.divide
  rw [if_neg hm]
  exact ⟨rfl, rfl, rfl, rfl, rfl, rfl, rfl⟩

/-- Witness for C3 at a concrete body with mass 2. -/
theorem physicsBody_update_C3_witness :
    (PhysicsBody.mk ⟨0, 0⟩ ⟨1, 2⟩ ⟨3, 4⟩ 2 0 0).mass ≠ 0 ∧
    ((PhysicsBody.mk ⟨0, 0⟩ ⟨1, 2⟩ ⟨3, 4⟩ 2 0 0).update 1).acceleration = ⟨0, 0⟩ := by
  have hm : (PhysicsBody.mk ⟨0, 0⟩ ⟨1, 2⟩ ⟨3, 4⟩ 2 0 0).mass ≠ 0 := by
    show (2 : ℝ) ≠ 0
    norm_num
  exact ⟨hm, (physicsBody_update_C3 _ 1 ⟨0, 0⟩ hm).2.2.2.2.1⟩

/-- C9: `normalize` maps a zero-magnitude vector to `(0,0)`, any other
vector to a vector of magnitude exactly 1 (over exact arithmetic), and
`divide` by zero yields `(0,0)` rather than an error. -/
theorem vector2D_normalize_C9 (v : Vector2D) :
    (v.magnitude = 0 → v.normalize = ⟨0, 0⟩) ∧
    (v.magnitude ≠ 0 → (v.normalize).magnitude = 1) ∧
    v.divide 0 = ⟨0, 0⟩ := by
  refine ⟨?_, ?_, ?_⟩
  · intro h
    unfold Vector2D.normalize
    rw [if_pos h]
  · intro h
    unfold Vector2D.normalize
    rw [if_neg h]
    unfold Vector2D.magnitude at h ⊢
    unfold Vector2D.divide
    rw [if_neg h]
    have hS0 : 0 ≤ v.x * v.x + v.y * v.y :=
      add_nonneg (mul_self_nonneg _) (mul_self_nonneg _)
    have hSne : v.x * v.x + v.y * v.y ≠ 0 := by
      intro h0
      exact h (by rw [h0, Real.sqrt_zero])
    have hsq : Real.sqrt (v.x * v.x + v.y * v.y) * Real.sqrt (v.x * v.x + v.y * v.y)
        = v.x * v.x + v.y * v.y := Real.mul_self_sqrt hS0
    show Real.sqrt
        (v.x / Real.sqrt (v.x * v.x + v.y * v.y) * (v.x / Real.sqrt (v.x * v.x + v.y * v.y)) +
         v.y / Real.sqrt (v.x * v.x + v.y * v.y) * (v.y / Real.sqrt (v.x * v.x + v.y * v.y))) = 1
    have e : v.x / Real.sqrt (v.x * v.x + v.y * v.y) * (v.x / Real.sqrt (v.x * v.x + v.y * v.y)) +
        v.y / Real.sqrt (v.x * v.x + v.y * v.y) * (v.y / Real.sqrt (v.x * v.x + v.y * v.y)) =
        (v.x * v.x + v.y * v.y) / (v.x * v.x + v.y * v.y) := by
      rw [div_mul_div_comm, div_mul_div_comm, hsq, div_add_div_same]
    rw [e, div_self hSne, Real.sqrt_one]
  · unfold Vector2D.divide
    rw [if_pos rfl]

/-- Witness for C9 at the vector (3, 4), whose magnitude 5 is nonzero. -/
theorem vector2D_normalize_C9_witness :
    (Vector2D.mk 3 4).magnitude ≠ 0 ∧ ((Vector2D.mk 3 4).normalize).magnitude = 1 := by
  have h : (Vector2D.mk 3 4).magnitude ≠ 0 := by
    show Real.sqrt ((3 : ℝ) * 3 + 4 * 4) ≠ 0
    exact ne_of_gt (Real.sqrt_pos.mpr (by norm_num))
  exact ⟨h, (vector2D_normalize_C9 ⟨3, 4⟩).2.1 h⟩

/-- Clearing the current touch state's own timer empties the pending
list, under the timer invariant. -/
theorem clearTimer_own (s : IMState) (ts : TouchStateM) (hinv : timerInv s)
    (hts : s.touchState = some ts) :
    clearTimer s.pending ts.longPressTimer = [] := by
  rcases hinv with h | ⟨ts', p, hts', htimer, hpend⟩
  · rw [h]; cases ts.longPressTimer <;> simp [clearTimer]
  · rw [hts] at hts'
    injection hts' with he
    subst he
    rw [hpend, htimer]
    simp [clearTimer]

/-- The auxiliary `pending` computation of `handleTouchStart`/`clearIM`
empties the pending list under the invariant. -/
theorem clearTimer_state (s : IMState) (hinv : timerInv s) :
    (match s.touchState with
      | some ts => clearTimer s.pending ts.longPressTimer
      | none => s.pending) = [] := by
  cases hts : s.touchState with
  | none =>
    rcases hinv with h | ⟨ts', p, hts', _, _⟩
    · exact h
    · rw [hts] at hts'; cases hts'
  | some ts => exact clearTimer_own s ts hinv hts

/-- Every `InputManager` entry point preserves the timer invariant. -/
theorem timerInv_step (cfg : InputConfig) (s : IMState) (a : IMAction)
    (h : timerInv s) : timerInv (imStep cfg s a).1 := by
  cases a with
  | touchStart x y now =>
    right
    refine ⟨_, ⟨s.nextId, x, y⟩, rfl, rfl, ?_⟩
    show (match s.touchState with
      | some ts => clearTimer s.pending ts.longPressTimer
      | none => s.pending) ++ [⟨s.nextId, x, y⟩] = [⟨s.nextId, x, y⟩]
    rw [clearTimer_state s h]
    rfl
  | touchMove x y now =>
    show timerInv (handleTouchMove cfg x y s).1
    cases hts : s.touchState with
    | none => simp only [handleTouchMove, hts]; exact h
    | some ts =>
      simp only [handleTouchMove, hts]
      split_ifs with hc hd
      · left
        exact clearTimer_own s ts h hts
      · rcases h with hpend | ⟨ts', p, hts', htimer, hpend⟩
        · exact Or.inl hpend
        · rw [hts] at hts'
          injection hts' with he
          subst he
          exact Or.inr ⟨_, p, rfl, htimer, hpend⟩
      · rcases h with hpend | ⟨ts', p, hts', htimer, hpend⟩
        · exact Or.inl hpend
        · rw [hts] at hts'
          injection hts' with he
          subst he
          exact Or.inr ⟨_, p, rfl, htimer, hpend⟩
  | touchEnd x y now =>
    show timerInv (handleTouchEnd cfg x y now s).1
    unfold handleTouchEnd
    cases hts : s.touchState with
    | none => exact h
    | some ts =>
      left
      exact clearTimer_own s ts h hts
  | timerFire id =>
    show timerInv (fireLongPress id s).1
    rcases h with hpend | ⟨ts', p, hts', htimer, hpend⟩
    · have hany : (s.pending.any fun q => q.id == id) = false := by
        rw [hpend]; rfl
      simp only [fireLongPress, hany]
      simp only [Bool.false_eq_true, if_false]
      exact Or.inl hpend
    · by_cases hpid : p.id = id
      · have hany : (s.pending.any fun q => q.id == id) = true := by
          rw [hpend]; simp [hpid]
        have hfil : (s.pending.filter fun q => q.id ≠ id) = [] := by
          rw [hpend]; simp [hpid]
        simp only [fireLongPress, hany, if_true, hts', hfil]
        split_ifs <;> exact Or.inl rfl
      · have hany : (s.pending.any fun q => q.id == id) = false := by
          rw [hpend]; simp [hpid]
        simp only [fireLongPress, hany]
        simp only [Bool.false_eq_true, if_false]
        exact Or.inr ⟨ts', p, hts', htimer, hpend⟩
  | clearAll =>
    show timerInv (clearIM s).1
    unfold clearIM
    left
    show (match s.touchState with
      | some ts => clearTimer s.pending ts.longPressTimer
      | none => s.pending) = []
    exact clearTimer_state s h

theorem timerInv_runFrom (cfg : InputConfig) (acts : List IMAction) :
    ∀ s, timerInv s → timerInv (imRunFrom cfg s acts).1 := by
  induction acts with
  | nil => intro s h; exact h
  | cons a acts ih => intro s h; exact ih _ (timerInv_step cfg s a h)

/-- C7: in every reachable state of the input manager, every pending
long-press timer is the one owned by the *current* touch state — so on
every path that discards a `TouchState` (drag start, touch end, a new
touch start, `clear`) its timer is cancelled no later than the discard,
and a discarded touch state never leaves a timer pending. -/
theorem inputManager_timer_C7 (cfg : InputConfig) (acts : List IMAction)
    (p : PendingTimer) (hp : p ∈ (imRun cfg acts).1.pending) :
    ∃ ts, (imRun cfg acts).1.touchState = some ts ∧
      ts.longPressTimer = some p.id := by
  have hinv := timerInv_runFrom cfg acts initIMState (Or.inl rfl)
  rcases hinv with h | ⟨ts, q, hts, htimer, hpend⟩
  · rw [show (imRun cfg acts).1.pending = [] from h] at hp
    cases hp
  · rw [show (imRun cfg acts).1.pending = [q] from hpend] at hp
    have he : p = q := by simpa using hp
    subst he
    exact ⟨ts, hts, htimer⟩

/-- Witness for C7: after a single `touchStart`, the pending timer 0 is
exactly the live touch state's timer. -/
theorem inputManager_timer_C7_witness :
    (⟨0, 0, 0⟩ : PendingTimer) ∈
      (imRun DEFAULT_INPUT_CONFIG [IMAction.touchStart 0 0 0]).1.pending ∧
    ∃ ts, (imRun DEFAULT_INPUT_CONFIG [IMAction.touchStart 0 0 0]).1.touchState = some ts ∧
      ts.longPressTimer = some (⟨0, 0, 0⟩ : PendingTimer).id := by
  have hp : (⟨0, 0, 0⟩ : PendingTimer) ∈
      (imRun DEFAULT_INPUT_CONFIG [IMAction.touchStart 0 0 0]).1.pending := by
    simp [imRun, imRunFrom, imStep, handleTouchStart, initIMState]
  exact ⟨hp, inputManager_timer_C7 _ _ _ hp⟩

/-- A `handleTouchMove` on an already-dragging touch emits exactly one
`drag_move` and only updates the current position. -/
theorem move_step_dragging (cfg : InputConfig) (x y now : ℚ) (s : IMState)
    (ts : TouchStateM) (hts : s.touchState = some ts) (hd : ts.isDragging = true) :
    (imStep cfg s (IMAction.touchMove x y now)).1.touchState
        = some { ts with currentX := x, currentY := y } ∧
    (imStep cfg s (IMAction.touchMove x y now)).2 = [InputEventType.drag_move] := by
  refine ⟨?_, ?_⟩ <;> simp [handleTouchMove, hts, hd, imStep]

/-- The first `handleTouchMove` beyond `dragThreshold` cancels the timer,
marks the touch as dragging, and emits `drag_start` then `drag_move`. -/
theorem move_step_cross (cfg : InputConfig) (x y now : ℚ) (s : IMState)
    (ts : TouchStateM) (hts : s.touchState = some ts) (hd : ts.isDragging = false)
    (hc : sqrtGtQ ((x - ts.startX) * (x - ts.startX) + (y - ts.startY) * (y - ts.startY))
        cfg.dragThreshold = true) :
    (imStep cfg s (IMAction.touchMove x y now)).1.touchState
        = some { ts with currentX := x, currentY := y, isDragging := true, longPressTimer := none } ∧
    (imStep cfg s (IMAction.touchMove x y now)).2
        = [InputEventType.drag_start, InputEventType.drag_move] := by
  refine ⟨?_, ?_⟩ <;> simp [handleTouchMove, hts, hd, hc, imStep]

/-- A `handleTouchMove` below `dragThreshold` on a non-dragging touch
emits nothing and only updates the current position. -/
theorem move_step_nocross (cfg : InputConfig) (x y now : ℚ) (s : IMState)
    (ts : TouchStateM) (hts : s.touchState = some ts) (hd : ts.isDragging = false)
    (hc : sqrtGtQ ((x - ts.startX) * (x - ts.startX) + (y - ts.startY) * (y - ts.startY))
        cfg.dragThreshold = false) :
    (imStep cfg s (IMAction.touchMove x y now)).1.touchState
        = some { ts with currentX := x, currentY := y } ∧
    (imStep cfg s (IMAction.touchMove x y now)).2 = [] := by
  refine ⟨?_, ?_⟩ <;> simp [handleTouchMove, hts, hd, hc, imStep]

/-- While dragging, a block of `handleTouchMove` calls emits exactly one
`drag_move` per call and the touch stays dragging. -/
theorem moves_fold_dragging (cfg : InputConfig) (moves : List (ℚ × ℚ × ℚ)) :
    ∀ (s : IMState) (ts : TouchStateM), s.touchState = some ts →
      ts.isDragging = true →
      (∃ ts2, (imRunFrom cfg s (movesActs moves)).1.touchState = some ts2 ∧
        ts2.isDragging = true) ∧
      (imRunFrom cfg s (movesActs moves)).2
        = List.replicate moves.length InputEventType.drag_move := by
  induction moves with
  | nil => intro s ts hts hd; exact ⟨⟨ts, hts, hd⟩, rfl⟩
  | cons m rest ih =>
    intro s ts hts hd
    have hstep := move_step_dragging cfg m.1 m.2.1 m.2.2 s ts hts hd
    have ihres := ih (imStep cfg s (IMAction.touchMove m.1 m.2.1 m.2.2)).1 _ hstep.1 hd
    constructor
    · exact ihres.1
    · show (imStep cfg s (IMAction.touchMove m.1 m.2.1 m.2.2)).2 ++
          (imRunFrom cfg (imStep cfg s (IMAction.touchMove m.1 m.2.1 m.2.2)).1
            (movesActs rest)).2 = _
      rw [hstep.2, ihres.2]
      simp [List.replicate_succ]

/-- A block of `handleTouchMove` calls containing a drag-threshold
crossing emits exactly one `drag_start` followed by `drag_move`s, and
leaves the touch dragging. -/
theorem moves_fold_cross (cfg : InputConfig) (moves : List (ℚ × ℚ × ℚ)) :
    ∀ (s : IMState) (ts : TouchStateM), s.touchState = some ts →
      ts.isDragging = false →
      (∃ m ∈ moves, crossesDrag cfg ts.startX ts.startY m = true) →
      (∃ ts2, (imRunFrom cfg s (movesActs moves)).1.touchState = some ts2 ∧
        ts2.isDragging = true) ∧
      ∃ k, (imRunFrom cfg s (movesActs moves)).2
        = InputEventType.drag_start :: List.replicate k InputEventType.drag_move := by
  induction moves with
  | nil =>
    intro s ts _ _ hcross
    rcases hcross with ⟨m, hm, _⟩
    exact absurd hm (List.not_mem_nil m)
  | cons m rest ih =>
    intro s ts hts hd hcross
    by_cases hc : crossesDrag cfg ts.startX ts.startY m = true
    · have hstep := move_step_cross cfg m.1 m.2.1 m.2.2 s ts hts hd hc
      have hrest := moves_fold_dragging cfg rest
        (imStep cfg s (IMAction.touchMove m.1 m.2.1 m.2.2)).1 _ hstep.1 rfl
      constructor
      · exact hrest.1
      · refine ⟨rest.length + 1, ?_⟩
        show (imStep cfg s (IMAction.touchMove m.1 m.2.1 m.2.2)).2 ++
            (imRunFrom cfg (imStep cfg s (IMAction.touchMove m.1 m.2.1 m.2.2)).1
              (movesActs rest)).2 = _
        rw [hstep.2, hrest.2]
        simp [List.replicate_succ]
    · have hc' : crossesDrag cfg ts.startX ts.startY m = false := by
        simpa using hc
      have hstep := move_step_nocross cfg m.1 m.2.1 m.2.2 s ts hts hd hc'
      have hcross' : ∃ m' ∈ rest, crossesDrag cfg ts.startX ts.startY m' = true := by
        rcases hcross with ⟨m', hm', hcm⟩
        rcases List.mem_cons.mp hm' with he | hm'
        · subst he; exact absurd hcm (by simp [hc'])
        · exact ⟨m', hm', hcm⟩
      have ihres := ih (imStep cfg s (IMAction.touchMove m.1 m.2.1 m.2.2)).1 _
        hstep.1 hd hcross'
      constructor
      · exact ihres.1
      · rcases ihres.2 with ⟨k, hev⟩
        refine ⟨k, ?_⟩
        show (imStep cfg s (IMAction.touchMove m.1 m.2.1 m.2.2)).2 ++
            (imRunFrom cfg (imStep cfg s (IMAction.touchMove m.1 m.2.1 m.2.2)).1
              (movesActs rest)).2 = _
        rw [hstep.2, hev]
        rfl

/-- `handleTouchEnd` on a dragging touch emits exactly `drag_end`. -/
theorem end_step_dragging (cfg : InputConfig) (x y now : ℚ) (s : IMState)
    (ts : TouchStateM) (hts : s.touchState = some ts) (hd : ts.isDragging = true) :
    (imStep cfg s (IMAction.touchEnd x y now)).2 = [InputEventType.drag_end] := by
  simp [imStep, handleTouchEnd, hts, hd]

theorem imRunFrom_append (cfg : InputConfig) (l1 l2 : List IMAction) :
    ∀ s, imRunFrom cfg s (l1 ++ l2)
      = ((imRunFrom cfg (imRunFrom cfg s l1).1 l2).1,
         (imRunFrom cfg s l1).2 ++ (imRunFrom cfg (imRunFrom cfg s l1).1 l2).2) := by
  induction l1 with
  | nil => intro s; simp [imRunFrom]
  | cons a l1 ih => intro s; simp [imRunFrom, ih]

/-- C6: a touch sequence `start → moves → end` in which some move's
cumulative displacement from the start point exceeds `dragThreshold`
emits exactly one `drag_start`, exactly one `drag_end`, and otherwise
only `drag_move` events — never `tap`, `double_tap` or any `swipe_*`. -/
theorem inputManager_drag_C6 (cfg : InputConfig) (s0 : IMState)
    (x0 y0 t0 x1 y1 t1 : ℚ) (moves : List (ℚ × ℚ × ℚ))
    (hcross : ∃ m ∈ moves, crossesDrag cfg x0 y0 m = true) :
    ((imRunFrom cfg s0 (dragTrace x0 y0 t0 moves x1 y1 t1)).2).count
        InputEventType.drag_start = 1 ∧
    ((imRunFrom cfg s0 (dragTrace x0 y0 t0 moves x1 y1 t1)).2).count
        InputEventType.drag_end = 1 ∧
    ∀ e ∈ (imRunFrom cfg s0 (dragTrace x0 y0 t0 moves x1 y1 t1)).2,
      e = InputEventType.drag_start ∨ e = InputEventType.drag_move ∨
        e = InputEventType.drag_end := by
  have hstart : (imStep cfg s0 (IMAction.touchStart x0 y0 t0)).1.touchState
      = some { startX := x0, startY := y0, currentX := x0, currentY := y0,
               startTime := t0,
               lastTapTime := match s0.touchState with
                 | some ts => ts.lastTapTime
                 | none => 0,
               isDragging := false, longPressTriggered := false,
               longPressTimer := some s0.nextId } := rfl
  set s1 := (imStep cfg s0 (IMAction.touchStart x0 y0 t0)).1 with hs1
  have hmoves := moves_fold_cross cfg moves s1 _ hstart rfl hcross
  rcases hmoves.1 with ⟨ts2, hts2, hd2⟩
  rcases hmoves.2 with ⟨k, hev⟩
  have hend := end_step_dragging cfg x1 y1 t1
    (imRunFrom cfg s1 (movesActs moves)).1 ts2 hts2 hd2
  have htrace : (imRunFrom cfg s0 (dragTrace x0 y0 t0 moves x1 y1 t1)).2
      = InputEventType.drag_start :: List.replicate k InputEventType.drag_move ++
          [InputEventType.drag_end] := by
    show (imStep cfg s0 (IMAction.touchStart x0 y0 t0)).2 ++
        (imRunFrom cfg s1 (movesActs moves ++ [IMAction.touchEnd x1 y1 t1])).2 = _
    rw [imRunFrom_append cfg (movesActs moves) [IMAction.touchEnd x1 y1 t1] s1]
    show [] ++ ((imRunFrom cfg s1 (movesActs moves)).2 ++
        ((imStep cfg (imRunFrom cfg s1 (movesActs moves)).1
            (IMAction.touchEnd x1 y1 t1)).2 ++ [])) = _
    rw [hev, hend]
    simp
  rw [htrace]
  refine ⟨?_, ?_, ?_⟩
  · simp [List.count_cons, List.count_append, List.count_replicate]
  · simp [List.count_cons, List.count_append, List.count_replicate]
  · intro e he
    rcases List.mem_cons.mp he with rfl | he
    · exact Or.inl rfl
    rcases List.mem_append.mp he with he | he
    · exact Or.inr (Or.inl (List.eq_of_mem_replicate he))
    · rcases List.mem_singleton.mp he with rfl
      exact Or.inr (Or.inr rfl)

/-- Witness for C6: one move of 20 px from the origin (beyond the default
`dragThreshold = 10`). -/
theorem inputManager_drag_C6_witness :
    (∃ m ∈ [((20 : ℚ), (0 : ℚ), (10 : ℚ))],
      crossesDrag DEFAULT_INPUT_CONFIG 0 0 m = true) ∧
    ((imRunFrom DEFAULT_INPUT_CONFIG initIMState
        (dragTrace 0 0 0 [(20, 0, 10)] 20 0 20)).2).count
      InputEventType.drag_start = 1 ∧
    ((imRunFrom DEFAULT_INPUT_CONFIG initIMState
        (dragTrace 0 0 0 [(20, 0, 10)] 20 0 20)).2).count
      InputEventType.drag_end = 1 := by
  have hcross : ∃ m ∈ [((20 : ℚ), (0 : ℚ), (10 : ℚ))],
      crossesDrag DEFAULT_INPUT_CONFIG 0 0 m = true := by
    refine ⟨(20, 0, 10), List.mem_singleton.mpr rfl, ?_⟩
    norm_num [crossesDrag, sqrtGtQ, DEFAULT_INPUT_CONFIG]
  have h := inputManager_drag_C6 DEFAULT_INPUT_CONFIG initIMState
    0 0 0 20 0 20 [(20, 0, 10)] hcross
  exact ⟨hcross, h.1, h.2.1⟩

theorem uniqJS_three {α : Type} [DecidableEq α] (a b c : α) (hba : b ≠ a)
    (hca : c ≠ a) (hcb : c ≠ b) : uniqJS [a, b, c] = [a, b, c] := by
  simp [uniqJS, hba, hca, hcb]

/-- The three cells of a matched window, with their pairwise
distinctness. -/
theorem cells_shape (w : MWindow) :
    ∃ p0 p1 p2 : Nat × Nat, w.cells = [p0, p1, p2] ∧ p1 ≠ p0 ∧ p2 ≠ p0 ∧ p2 ≠ p1 := by
  cases w with
  | horiz r c =>
    exact ⟨(r, c), (r, c + 1), (r, c + 2), rfl, by simp, by simp, by simp⟩
  | vert r c =>
    exact ⟨(r, c), (r + 1, c), (r + 2, c), rfl, by simp, by simp, by simp⟩

theorem setCell_self (g : Grid) (p : Nat × Nat) (v : String) :
    setCell g p v p.1 p.2 = v := by
  simp [setCell]

theorem setCell_ne (g : Grid) (p : Nat × Nat) (v : String) (r c : Nat)
    (h : (r, c) ≠ p) : setCell g p v r c = g r c := by
  unfold setCell
  rw [if_neg]
  rintro ⟨h1, h2⟩
  exact h (by cases p; simp_all)

/-- C4: if the scan finds exactly one matched window `w` (one pre-seeded
run of three, no other run of ≥ 3), `checkMatches` adds exactly
`3 * coinValue` to the score, reports the new score once through
`onScoreChange`, replaces exactly the window's 3 cells with fresh random
colors, and leaves every other cell unchanged. -/
theorem puzzle_checkMatches_C4 (coinValue : Nat) (rng : Nat → Fin COLORS.length)
    (g : Grid) (score : Nat) (w : MWindow) (hw : matchedWindows g = [w]) :
    (checkMatches coinValue rng g score).2.1 = score + 3 * coinValue ∧
    (checkMatches coinValue rng g score).2.2 = [score + 3 * coinValue] ∧
    (∀ r c, (r, c) ∉ w.cells → (checkMatches coinValue rng g score).1 r c = g r c) ∧
    ∃ p0 p1 p2 : Nat × Nat, w.cells = [p0, p1, p2] ∧
      (checkMatches coinValue rng g score).1 p0.1 p0.2 = COLORS.get (rng 0) ∧
      (checkMatches coinValue rng g score).1 p1.1 p1.2 = COLORS.get (rng 1) ∧
      (checkMatches coinValue rng g score).1 p2.1 p2.2 = COLORS.get (rng 2) := by
  obtain ⟨p0, p1, p2, hcells, h10, h20, h21⟩ := cells_shape w
  have htr : (matchedWindows g).flatMap MWindow.cells = [p0, p1, p2] := by
    rw [hw]
    simp [List.flatMap, hcells]
  have hcm : checkMatches coinValue rng g score
      = (replaceCells rng g [p0, p1, p2] 0, score + 3 * coinValue,
         [score + 3 * coinValue]) := by
    unfold checkMatches
    rw [htr]
    simp only [List.isEmpty_cons, Bool.false_eq_true, if_false,
      uniqJS_three p0 p1 p2 h10 h20 h21]
    rfl
  have hrepl : replaceCells rng g [p0, p1, p2] 0
      = setCell (setCell (setCell g p0 (COLORS.get (rng 0))) p1 (COLORS.get (rng 1)))
          p2 (COLORS.get (rng 2)) := rfl
  refine ⟨by rw [hcm], by rw [hcm], ?_, ?_⟩
  · intro r c hnot
    rw [hcm]
    show replaceCells rng g [p0, p1, p2] 0 r c = g r c
    rw [hrepl]
    rw [hcells] at hnot
    simp only [List.mem_cons, List.not_mem_nil, or_false, not_or] at hnot
    rw [setCell_ne _ _ _ _ _ hnot.2.2, setCell_ne _ _ _ _ _ hnot.2.1,
      setCell_ne _ _ _ _ _ hnot.1]
  · refine ⟨p0, p1, p2, hcells, ?_, ?_, ?_⟩
    · rw [hcm]
      show replaceCells rng g [p0, p1, p2] 0 p0.1 p0.2 = _
      rw [hrepl]
      rw [setCell_ne _ _ _ _ _ (Ne.symm h20), setCell_ne _ _ _ _ _ (Ne.symm h10)]
      exact setCell_self _ _ _
    · rw [hcm]
      show replaceCells rng g [p0, p1, p2] 0 p1.1 p1.2 = _
      rw [hrepl]
      rw [setCell_ne _ _ _ _ _ (Ne.symm h21)]
      exact setCell_self _ _ _
    · rw [hcm]
      show replaceCells rng g [p0, p1, p2] 0 p2.1 p2.2 = _
      rw [hrepl]
      exact setCell_self _ _ _

/-- Witness for C4: `demoGrid` has exactly the horizontal window at
(0,0); `checkMatches` with `coinValue = 10` scores 30 and leaves the far
cell (5,5) unchanged. -/
theorem puzzle_checkMatches_C4_witness :
    matchedWindows demoGrid = [MWindow.horiz 0 0] ∧
    (checkMatches 10 (fun _ => ⟨0, by decide⟩) demoGrid 0).2.1 = 0 + 3 * 10 ∧
    (checkMatches 10 (fun _ => ⟨0, by decide⟩) demoGrid 0).1 5 5 = demoGrid 5 5 := by
  have hw : matchedWindows demoGrid = [MWindow.horiz 0 0] := by decide
  have h := puzzle_checkMatches_C4 10 (fun _ => ⟨0, by decide⟩) demoGrid 0
    (MWindow.horiz 0 0) hw
  exact ⟨hw, h.1, h.2.2.1 5 5 (by decide)⟩
